import Mathlib

/-!
Verification of the Sparkfun_Qwiic sensor-dashboard repository.

The Python source is shallowly embedded: dictionaries become association
lists, `collections.deque(maxlen=n)` becomes a bounded list, exceptions
become `Except`, the random source becomes an explicit stream of draws,
and the file system becomes a path-indexed association list.  Numeric
values are rationals; the float NaN sentinel is a dedicated constructor.
-/

set_option autoImplicit false

namespace Qwiic

/-! ### DataManager (Qwiic_SensorsQT/data_manager.py)

`DataManager.__init__` builds two `collections.deque(maxlen=max_data_points)`
buffers; `add_data` appends to both; `get_filtered_data` filters by a
time-range string.  A deque append with `maxlen` evicts from the left when
the buffer is full. -/

/-- `collections.deque(maxlen=m).append x`: append on the right, evicting
from the left whatever exceeds the bound `m`. -/
def dequeAppend {α : Type} (m : ℕ) (xs : List α) (x : α) : List α :=
  if m < xs.length + 1 then (xs ++ [x]).drop (xs.length + 1 - m) else xs ++ [x]

/-- The two parallel history buffers of `DataManager`. -/
structure DataManager (α : Type) where
  timestamps : List ℚ
  history : List α

/-- Initial `DataManager` state: both deques empty. -/
def DataManager.empty {α : Type} : DataManager α := ⟨[], []⟩

/-- `DataManager.add_data`: append the timestamp and the reading to the
two bounded deques. -/
def addData {α : Type} (m : ℕ) (st : DataManager α) (t : ℚ) (d : α) :
    DataManager α :=
  ⟨dequeAppend m st.timestamps t, dequeAppend m st.history d⟩

/-- The `time_limit` computed by `get_filtered_data` from the range
string (`None` when the string is not one of the five recognized ones). -/
def timeLimit (now : ℚ) (s : String) : Option ℚ :=
  if s = "Last 10 minutes" then some (now - 10 * 60)
  else if s = "Last 30 minutes" then some (now - 30 * 60)
  else if s = "Last hour" then some (now - 60 * 60)
  else if s = "Last 6 hours" then some (now - 6 * 60 * 60)
  else if s = "Last 24 hours" then some (now - 24 * 60 * 60)
  else none

/-- The filter condition of the loop body:
`time_limit is None or timestamp >= time_limit`. -/
def keepEntry (lim : Option ℚ) (t : ℚ) : Bool :=
  match lim with
  | none => true
  | some l => decide (l ≤ t)

/-- The accumulation loop of `get_filtered_data`: walk the paired
buffers in order, keeping the entries that pass the time limit. -/
def filterPairs {α : Type} (lim : Option ℚ) :
    List (ℚ × α) → List ℚ × List α
  | [] => ([], [])
  | p :: rest =>
    let r := filterPairs lim rest
    if keepEntry lim p.1 then (p.1 :: r.1, p.2 :: r.2) else r

/-- `DataManager.get_filtered_data`: empty timestamps short-circuit to
`([], [])`; otherwise filter the index-paired buffers by the time limit
derived from the range string. -/
def getFilteredData {α : Type} (st : DataManager α) (s : String) (now : ℚ) :
    List ℚ × List α :=
  if st.timestamps = [] then ([], [])
  else filterPairs (timeLimit now s) (st.timestamps.zip st.history)

/-- Modelled from the spec: the named duration, in seconds, of each of the
five recognized time-range strings. -/
def rangeSeconds (s : String) : Option ℚ :=
  if s = "Last 10 minutes" then some (10 * 60)
  else if s = "Last 30 minutes" then some (30 * 60)
  else if s = "Last hour" then some (60 * 60)
  else if s = "Last 6 hours" then some (6 * 60 * 60)
  else if s = "Last 24 hours" then some (24 * 60 * 60)
  else none

theorem dequeAppend_length {α : Type} (m : ℕ) (xs : List α) (x : α) :
    (dequeAppend m xs x).length = min (xs.length + 1) m := by
  unfold dequeAppend
  split_ifs with h
  · simp only [List.length_drop, List.length_append, List.length_singleton]
    omega
  · simp only [List.length_append, List.length_singleton]
    omega

theorem addData_inv {α : Type} (m : ℕ) (st : DataManager α) (t : ℚ) (d : α)
    (h₁ : st.timestamps.length ≤ m)
    (h₂ : st.history.length = st.timestamps.length) :
    (addData m st t d).timestamps.length ≤ m ∧
      (addData m st t d).history.length = (addData m st t d).timestamps.length := by
  unfold addData
  simp only [dequeAppend_length]
  omega

theorem foldl_addData_inv {α : Type} (m : ℕ) (ops : List (ℚ × α)) :
    ∀ st : DataManager α,
      st.timestamps.length ≤ m → st.history.length = st.timestamps.length →
      (ops.foldl (fun s p => addData m s p.1 p.2) st).timestamps.length ≤ m ∧
        (ops.foldl (fun s p => addData m s p.1 p.2) st).history.length =
          (ops.foldl (fun s p => addData m s p.1 p.2) st).timestamps.length := by
  induction ops with
  | nil => intro st h₁ h₂; exact ⟨h₁, h₂⟩
  | cons p rest ih =>
    intro st h₁ h₂
    have h := addData_inv m st p.1 p.2 h₁ h₂
    exact ih (addData m st p.1 p.2) h.1 h.2

/-- C3: for every capacity `m` and every sequence of `add_data` calls
starting from a fresh `DataManager`, the history buffer never exceeds
`m` entries and the timestamp buffer always has the same length. -/
theorem dataManager_bounded {α : Type} (m : ℕ) (ops : List (ℚ × α)) :
    (ops.foldl (fun s p => addData m s p.1 p.2) DataManager.empty).timestamps.length ≤ m ∧
      (ops.foldl (fun s p => addData m s p.1 p.2) DataManager.empty).history.length =
        (ops.foldl (fun s p => addData m s p.1 p.2) DataManager.empty).timestamps.length := by
  exact foldl_addData_inv m ops DataManager.empty (by simp [DataManager.empty])
    (by simp [DataManager.empty])

theorem filterPairs_some {α : Type} (l : ℚ) (ps : List (ℚ × α)) :
    filterPairs (some l) ps =
      ((ps.filter (fun p => decide (l ≤ p.1))).map Prod.fst,
       (ps.filter (fun p => decide (l ≤ p.1))).map Prod.snd) := by
  induction ps with
  | nil => rfl
  | cons p rest ih =>
    unfold filterPairs
    rw [ih]
    by_cases h : l ≤ p.1 <;> simp [keepEntry, List.filter, h]

theorem filterPairs_none {α : Type} (ps : List (ℚ × α)) :
    filterPairs (none : Option ℚ) ps = (ps.map Prod.fst, ps.map Prod.snd) := by
  induction ps with
  | nil => rfl
  | cons p rest ih => unfold filterPairs; rw [ih]; simp [keepEntry]

theorem timeLimit_of_rangeSeconds (now d : ℚ) (s : String)
    (hd : rangeSeconds s = some d) : timeLimit now s = some (now - d) := by
  unfold rangeSeconds at hd
  unfold timeLimit
  split_ifs at hd ⊢ <;> simp_all

theorem timeLimit_of_rangeSeconds_none (now : ℚ) (s : String)
    (hd : rangeSeconds s = none) : timeLimit now s = none := by
  unfold rangeSeconds at hd
  unfold timeLimit
  split_ifs at hd ⊢ <;> simp_all

/-- C4: for each of the five recognized range strings with named duration
`d` seconds, `get_filtered_data` returns exactly the index-paired entries
whose timestamp is at least `now - d`, kept in original order, with the
timestamp list and data list projections of one and the same filtered
list (hence index-aligned). -/
theorem getFilteredData_recognized {α : Type} (st : DataManager α)
    (s : String) (now d : ℚ) (hd : rangeSeconds s = some d)
    (hlen : st.timestamps.length = st.history.length) :
    getFilteredData st s now =
      (((st.timestamps.zip st.history).filter (fun p => decide (now - d ≤ p.1))).map Prod.fst,
       ((st.timestamps.zip st.history).filter (fun p => decide (now - d ≤ p.1))).map Prod.snd) := by
  unfold getFilteredData
  rw [timeLimit_of_rangeSeconds now d s hd, filterPairs_some]
  by_cases h : st.timestamps = []
  · simp [h]
  · simp [h]

/-- C4 witness. -/
theorem getFilteredData_recognized_witness :
    getFilteredData (⟨[1000, 2000], [10, 20]⟩ : DataManager ℚ) "Last 10 minutes" 2100 =
      ([2000], [20]) := by
  have h := getFilteredData_recognized (⟨[1000, 2000], [10, 20]⟩ : DataManager ℚ)
    "Last 10 minutes" 2100 (10 * 60) (by norm_num [rangeSeconds]) rfl
  rw [h]
  norm_num [List.filter]

/-- C9: for any range string outside the five recognized ones (such as
"All data"), no time limit applies and `get_filtered_data` returns the
whole history in original order; in particular an empty history yields
`([], [])`. -/
theorem getFilteredData_unrecognized {α : Type} (st : DataManager α)
    (s : String) (now : ℚ) (hd : rangeSeconds s = none)
    (hlen : st.timestamps.length = st.history.length) :
    getFilteredData st s now = (st.timestamps, st.history) := by
  unfold getFilteredData
  rw [timeLimit_of_rangeSeconds_none now s hd, filterPairs_none]
  by_cases h : st.timestamps = []
  · have : st.history = [] := by
      cases hh : st.history with
      | nil => rfl
      | cons a l => rw [h, hh] at hlen; simp at hlen
    simp [h, this]
  · simp only [h, if_false]
    rw [List.map_fst_zip _ _ (le_of_eq hlen),
      List.map_snd_zip _ _ (ge_of_eq hlen)]

/-- C9 witness. -/
theorem getFilteredData_unrecognized_witness :
    getFilteredData (⟨[5], [7]⟩ : DataManager ℚ) "All data" 0 = ([5], [7]) :=
  getFilteredData_unrecognized ⟨[5], [7]⟩ "All data" 0 (by simp [rangeSeconds]) rfl

/-! ### SensorInterface (Qwiic_SensorsQT/sensor_interface.py and
Qwiic_Sensors/sensor_interface.py)

Hardware sensor objects are `Option` (the attribute is `None` when the
device is absent); a hardware read on a present device either yields a
reading or raises (`Except`).  `random.uniform a b` is modelled as
`a + (b - a) * u` for a unit draw `u`, `random.randint a b` as
`a + k % (b - a + 1)` for a draw `k`. -/

/-- A Python float cell of a reading dictionary: a number or NaN. -/
inductive SVal where
  | num (q : ℚ)
  | nan
deriving DecidableEq

/-- The seven fields read from the BME280 inside one `try` block. -/
structure BmeReading where
  temp_c : ℚ
  humidity : ℚ
  pressure : ℚ
  altitude : ℚ
  temp_f : ℚ
  dewpoint_c : ℚ
  dewpoint_f : ℚ

/-- The two fields read from the SHTC3 inside one `try` block. -/
structure ShtReading where
  temperature : ℚ
  humidity : ℚ

/-- The three fields read from the proximity sensor inside one `try` block. -/
structure ProxReading where
  proximity : ℚ
  ambient_light : ℚ
  white_light : ℚ

/-- Per-call hardware outcomes: `none` models an attribute that is `None`
(sensor never initialized), `some (.error e)` a read that raises, and
`some (.ok r)` a successful read. -/
structure SensorState where
  bme : Option (Except String BmeReading)
  sgp : Option (Except String ℚ)
  sht : Option (Except String ShtReading)
  prox : Option (Except String ProxReading)

/-- A sensor's metric dictionary. -/
abbrev MetricDict := List (String × SVal)

/-- The dictionary returned by `read_all_sensors`. -/
abbrev SensorDict := List (String × MetricDict)

/-- A status message with its color tag. -/
abbrev StatusMsg := String × String

/-- The all-NaN BME280 dictionary built by the `except` and `else`
branches (`{k: float('nan') for k in [...]}`). -/
def bmeNan : MetricDict :=
  [("temp_c", .nan), ("humidity", .nan), ("pressure", .nan), ("altitude", .nan),
   ("temp_f", .nan), ("dewpoint_c", .nan), ("dewpoint_f", .nan)]

/-- The BME280 dictionary built from a successful read. -/
def bmeDict (r : BmeReading) : MetricDict :=
  [("temp_c", .num r.temp_c), ("humidity", .num r.humidity),
   ("pressure", .num r.pressure), ("altitude", .num r.altitude),
   ("temp_f", .num r.temp_f), ("dewpoint_c", .num r.dewpoint_c),
   ("dewpoint_f", .num r.dewpoint_f)]

def sgpNan : MetricDict := [("voc_index", .nan)]

def shtNan : MetricDict := [("temperature", .nan), ("humidity", .nan)]

def proxNan : MetricDict :=
  [("proximity", .nan), ("ambient_light", .nan), ("white_light", .nan)]

/-- `random.uniform a b` with unit draw `u`. -/
def uniform (a b u : ℚ) : ℚ := a + (b - a) * u

/-- `random.randint a b` (inclusive bounds) with draw `k`. -/
def randint (a b k : ℕ) : ℕ := a + k % (b - a + 1)

/-- The mock BME280 dictionary (`random.uniform` on the documented ranges). -/
def mockBme (u : ℕ → ℚ) : MetricDict :=
  [("temp_c", .num (uniform 20 30 (u 0))), ("humidity", .num (uniform 40 60 (u 1))),
   ("pressure", .num (uniform 900 1100 (u 2))), ("altitude", .num (uniform 500 1500 (u 3))),
   ("temp_f", .num (uniform 68 86 (u 4))), ("dewpoint_c", .num (uniform 10 20 (u 5))),
   ("dewpoint_f", .num (uniform 50 68 (u 6)))]

def mockSgp (u : ℕ → ℚ) : MetricDict := [("voc_index", .num (uniform 0 500 (u 7)))]

def mockSht (u : ℕ → ℚ) : MetricDict :=
  [("temperature", .num (uniform 20 30 (u 8))), ("humidity", .num (uniform 40 60 (u 9)))]

def mockProx (z : ℕ → ℕ) : MetricDict :=
  [("proximity", .num (randint 0 255 (z 0))),
   ("ambient_light", .num (randint 0 1023 (z 1))),
   ("white_light", .num (randint 0 1023 (z 2)))]

/-- The full mock dictionary produced when mock data is generated for all
four sensors. -/
def mockSensorData (u : ℕ → ℚ) (z : ℕ → ℕ) : SensorDict :=
  [("bme280", mockBme u), ("sgp40", mockSgp u),
   ("shtc3", mockSht u), ("proximity", mockProx z)]

/-- One sensor's branch of the hardware path of `read_all_sensors`:
success yields the read dictionary, a raised exception yields the all-NaN
dictionary plus an error status, an absent device yields `fallback`. -/
def bmeResultWith (fallback : MetricDict) (col : String) :
    Option (Except String BmeReading) → MetricDict × List StatusMsg
  | some (.ok r) => (bmeDict r, [])
  | some (.error e) => (bmeNan, [("BME280 read error: " ++ e, col)])
  | none => (fallback, [])

def sgpResultWith (fallback : MetricDict) (col : String) :
    Option (Except String ℚ) → MetricDict × List StatusMsg
  | some (.ok v) => ([("voc_index", .num v)], [])
  | some (.error e) => (sgpNan, [("SGP40 read error: " ++ e, col)])
  | none => (fallback, [])

def shtResultWith (fallback : MetricDict) (col : String) :
    Option (Except String ShtReading) → MetricDict × List StatusMsg
  | some (.ok r) => ([("temperature", .num r.temperature), ("humidity", .num r.humidity)], [])
  | some (.error e) => (shtNan, [("SHTC3 read error: " ++ e, col)])
  | none => (fallback, [])

def proxResultWith (fallback : MetricDict) (col : String) :
    Option (Except String ProxReading) → MetricDict × List StatusMsg
  | some (.ok r) => ([("proximity", .num r.proximity), ("ambient_light", .num r.ambient_light),
       ("white_light", .num r.white_light)], [])
  | some (.error e) => (proxNan, [("Proximity read error: " ++ e, col)])
  | none => (fallback, [])

/-- `SensorInterface.read_all_sensors` of the PyQt application: mock mode
returns fresh mock data for every sensor; otherwise each sensor is read
with a broad `except` that substitutes NaN for every metric, an absent
sensor object yields NaN directly. -/
def qtReadAllSensors (useMock : Bool) (u : ℕ → ℚ) (z : ℕ → ℕ)
    (st : SensorState) : SensorDict × List StatusMsg :=
  if useMock then (mockSensorData u z, [])
  else
    let b := bmeResultWith bmeNan "warning" st.bme
    let s := sgpResultWith sgpNan "warning" st.sgp
    let h := shtResultWith shtNan "warning" st.sht
    let p := proxResultWith proxNan "warning" st.prox
    ([("bme280", b.1), ("sgp40", s.1), ("shtc3", h.1), ("proximity", p.1)],
     b.2 ++ s.2 ++ h.2 ++ p.2)

/-- `SensorInterface.read_all_sensors` of the Tkinter application: an
absent sensor object yields mock data when the libraries are unavailable
(`SENSORS_AVAILABLE` false) and NaN otherwise; a present sensor is read
with the same broad `except`-to-NaN fallback. -/
def tkReadAllSensors (avail : Bool) (u : ℕ → ℚ) (z : ℕ → ℕ)
    (st : SensorState) : SensorDict × List StatusMsg :=
  let b := bmeResultWith (if avail then bmeNan else mockBme u) "orange" st.bme
  let s := sgpResultWith (if avail then sgpNan else mockSgp u) "orange" st.sgp
  let h := shtResultWith (if avail then shtNan else mockSht u) "orange" st.sht
  let p := proxResultWith (if avail then proxNan else mockProx z) "orange" st.prox
  ([("bme280", b.1), ("sgp40", s.1), ("shtc3", h.1), ("proximity", p.1)],
   b.2 ++ s.2 ++ h.2 ++ p.2)

/-- The hardware read for the named sensor raises an exception. -/
def raisesAt (st : SensorState) (name : String) : Prop :=
  (name = "bme280" ∧ ∃ e, st.bme = some (.error e)) ∨
  (name = "sgp40" ∧ ∃ e, st.sgp = some (.error e)) ∨
  (name = "shtc3" ∧ ∃ e, st.sht = some (.error e)) ∨
  (name = "proximity" ∧ ∃ e, st.prox = some (.error e))

/-- Every metric of the dictionary is the NaN sentinel. -/
def allNan (d : MetricDict) : Prop := ∀ kv ∈ d, kv.2 = SVal.nan

/-- The dictionary `d` maps the sensor `s` to a metric dictionary whose
key `k` holds a number in `[a, b]`. -/
def entryRange (d : SensorDict) (s k : String) (a b : ℚ) : Prop :=
  ∃ md, d.lookup s = some md ∧ ∃ q, md.lookup k = some (.num q) ∧ a ≤ q ∧ q ≤ b

/-- C1: in both `read_all_sensors` implementations, a hardware read that
raises for a sensor yields an all-NaN metric dictionary for that sensor
(never a partial mix), emits a status message, and the returned
dictionary still has an entry for all four sensors (the function returns
normally). -/
theorem readAllSensors_exception_nan (st : SensorState) (name : String)
    (u : ℕ → ℚ) (z : ℕ → ℕ) (avail : Bool) (h : raisesAt st name) :
    (∃ d, ((qtReadAllSensors false u z st).1).lookup name = some d ∧ allNan d) ∧
    (∃ m, m ∈ (qtReadAllSensors false u z st).2) ∧
    ((qtReadAllSensors false u z st).1).map Prod.fst =
      ["bme280", "sgp40", "shtc3", "proximity"] ∧
    (∃ d, ((tkReadAllSensors avail u z st).1).lookup name = some d ∧ allNan d) ∧
    (∃ m, m ∈ (tkReadAllSensors avail u z st).2) ∧
    ((tkReadAllSensors avail u z st).1).map Prod.fst =
      ["bme280", "sgp40", "shtc3", "proximity"] := by
  rcases h with ⟨hn, e, he⟩ | ⟨hn, e, he⟩ | ⟨hn, e, he⟩ | ⟨hn, e, he⟩ <;> subst hn
  · refine ⟨⟨bmeNan, ?_, by unfold allNan; decide⟩, ⟨("BME280 read error: " ++ e, "warning"), ?_⟩,
      by simp [qtReadAllSensors],
      ⟨bmeNan, ?_, by unfold allNan; decide⟩, ⟨("BME280 read error: " ++ e, "orange"), ?_⟩,
      by simp [tkReadAllSensors]⟩ <;>
      simp [qtReadAllSensors, tkReadAllSensors, bmeResultWith, he, List.lookup]
  · refine ⟨⟨sgpNan, ?_, by unfold allNan; decide⟩, ⟨("SGP40 read error: " ++ e, "warning"), ?_⟩,
      by simp [qtReadAllSensors],
      ⟨sgpNan, ?_, by unfold allNan; decide⟩, ⟨("SGP40 read error: " ++ e, "orange"), ?_⟩,
      by simp [tkReadAllSensors]⟩ <;>
      simp [qtReadAllSensors, tkReadAllSensors, sgpResultWith, he, List.lookup]
  · refine ⟨⟨shtNan, ?_, by unfold allNan; decide⟩, ⟨("SHTC3 read error: " ++ e, "warning"), ?_⟩,
      by simp [qtReadAllSensors],
      ⟨shtNan, ?_, by unfold allNan; decide⟩, ⟨("SHTC3 read error: " ++ e, "orange"), ?_⟩,
      by simp [tkReadAllSensors]⟩ <;>
      simp [qtReadAllSensors, tkReadAllSensors, shtResultWith, he, List.lookup]
  · refine ⟨⟨proxNan, ?_, by unfold allNan; decide⟩, ⟨("Proximity read error: " ++ e, "warning"), ?_⟩,
      by simp [qtReadAllSensors],
      ⟨proxNan, ?_, by unfold allNan; decide⟩, ⟨("Proximity read error: " ++ e, "orange"), ?_⟩,
      by simp [tkReadAllSensors]⟩ <;>
      simp [qtReadAllSensors, tkReadAllSensors, proxResultWith, he, List.lookup]

/-- C1 witness. -/
theorem readAllSensors_exception_nan_witness :
    (∃ d, ((qtReadAllSensors false (fun _ => 0) (fun _ => 0)
        ⟨some (.error "boom"), none, none, none⟩).1).lookup "bme280" = some d ∧ allNan d) ∧
    (∃ m, m ∈ (qtReadAllSensors false (fun _ => 0) (fun _ => 0)
        ⟨some (.error "boom"), none, none, none⟩).2) ∧
    ((qtReadAllSensors false (fun _ => 0) (fun _ => 0)
        ⟨some (.error "boom"), none, none, none⟩).1).map Prod.fst =
      ["bme280", "sgp40", "shtc3", "proximity"] ∧
    (∃ d, ((tkReadAllSensors true (fun _ => 0) (fun _ => 0)
        ⟨some (.error "boom"), none, none, none⟩).1).lookup "bme280" = some d ∧ allNan d) ∧
    (∃ m, m ∈ (tkReadAllSensors true (fun _ => 0) (fun _ => 0)
        ⟨some (.error "boom"), none, none, none⟩).2) ∧
    ((tkReadAllSensors true (fun _ => 0) (fun _ => 0)
        ⟨some (.error "boom"), none, none, none⟩).1).map Prod.fst =
      ["bme280", "sgp40", "shtc3", "proximity"] :=
  readAllSensors_exception_nan ⟨some (.error "boom"), none, none, none⟩ "bme280"
    (fun _ => 0) (fun _ => 0) true (Or.inl ⟨rfl, "boom", rfl⟩)

theorem uniform_mem (a b u : ℚ) (h0 : 0 ≤ u) (h1 : u ≤ 1) (hab : a ≤ b) :
    a ≤ uniform a b u ∧ uniform a b u ≤ b := by
  unfold uniform
  constructor <;> nlinarith

theorem randint_mem (a b k : ℕ) (hab : a ≤ b) :
    a ≤ randint a b k ∧ randint a b k ≤ b := by
  unfold randint
  have h := Nat.mod_lt k (show 0 < b - a + 1 by omega)
  omega

/-- C6: in mock mode (the PyQt mock branch, and the Tkinter application
with the sensor libraries unavailable and hence no sensor objects),
`read_all_sensors` returns the freshly generated mock dictionary, and for
every unit-interval draw stream all its values sit in the documented
ranges: bme280 temp 20–30, humidity 40–60, pressure 900–1100, altitude
500–1500; sgp40 voc 0–500; shtc3 temperature 20–30, humidity 40–60;
proximity 0–255 and ambient/white light 0–1023. -/
theorem mockMode_ranges (u : ℕ → ℚ) (z : ℕ → ℕ) (st : SensorState)
    (hu : ∀ i, 0 ≤ u i ∧ u i ≤ 1) :
    (qtReadAllSensors true u z st).1 = mockSensorData u z ∧
    (tkReadAllSensors false u z ⟨none, none, none, none⟩).1 = mockSensorData u z ∧
    entryRange (mockSensorData u z) "bme280" "temp_c" 20 30 ∧
    entryRange (mockSensorData u z) "bme280" "humidity" 40 60 ∧
    entryRange (mockSensorData u z) "bme280" "pressure" 900 1100 ∧
    entryRange (mockSensorData u z) "bme280" "altitude" 500 1500 ∧
    entryRange (mockSensorData u z) "sgp40" "voc_index" 0 500 ∧
    entryRange (mockSensorData u z) "shtc3" "temperature" 20 30 ∧
    entryRange (mockSensorData u z) "shtc3" "humidity" 40 60 ∧
    entryRange (mockSensorData u z) "proximity" "proximity" 0 255 ∧
    entryRange (mockSensorData u z) "proximity" "ambient_light" 0 1023 ∧
    entryRange (mockSensorData u z) "proximity" "white_light" 0 1023 := by
  have hz255 : ∀ j, (0 : ℚ) ≤ (randint 0 255 (z j) : ℚ) ∧ ((randint 0 255 (z j) : ℚ)) ≤ 255 := by
    intro j
    have h := randint_mem 0 255 (z j) (by omega)
    constructor <;> exact_mod_cast by omega
  have hz1023 : ∀ j, (0 : ℚ) ≤ (randint 0 1023 (z j) : ℚ) ∧ ((randint 0 1023 (z j) : ℚ)) ≤ 1023 := by
    intro j
    have h := randint_mem 0 1023 (z j) (by omega)
    constructor <;> exact_mod_cast by omega
  refine ⟨by simp [qtReadAllSensors],
    by simp [tkReadAllSensors, bmeResultWith, sgpResultWith, shtResultWith,
      proxResultWith, mockSensorData],
    ?_, ?_, ?_, ?_, ?_, ?_, ?_, ?_, ?_, ?_⟩
  · exact ⟨mockBme u, by simp [mockSensorData, List.lookup],
      uniform 20 30 (u 0), by simp [mockBme, List.lookup],
      (uniform_mem 20 30 (u 0) (hu 0).1 (hu 0).2 (by norm_num)).1,
      (uniform_mem 20 30 (u 0) (hu 0).1 (hu 0).2 (by norm_num)).2⟩
  · exact ⟨mockBme u, by simp [mockSensorData, List.lookup],
      uniform 40 60 (u 1), by simp [mockBme, List.lookup],
      (uniform_mem 40 60 (u 1) (hu 1).1 (hu 1).2 (by norm_num)).1,
      (uniform_mem 40 60 (u 1) (hu 1).1 (hu 1).2 (by norm_num)).2⟩
  · exact ⟨mockBme u, by simp [mockSensorData, List.lookup],
      uniform 900 1100 (u 2), by simp [mockBme, List.lookup],
      (uniform_mem 900 1100 (u 2) (hu 2).1 (hu 2).2 (by norm_num)).1,
      (uniform_mem 900 1100 (u 2) (hu 2).1 (hu 2).2 (by norm_num)).2⟩
  · exact ⟨mockBme u, by simp [mockSensorData, List.lookup],
      uniform 500 1500 (u 3), by simp [mockBme, List.lookup],
      (uniform_mem 500 1500 (u 3) (hu 3).1 (hu 3).2 (by norm_num)).1,
      (uniform_mem 500 1500 (u 3) (hu 3).1 (hu 3).2 (by norm_num)).2⟩
  · exact ⟨mockSgp u, by simp [mockSensorData, List.lookup],
      uniform 0 500 (u 7), by simp [mockSgp, List.lookup],
      (uniform_mem 0 500 (u 7) (hu 7).1 (hu 7).2 (by norm_num)).1,
      (uniform_mem 0 500 (u 7) (hu 7).1 (hu 7).2 (by norm_num)).2⟩
  · exact ⟨mockSht u, by simp [mockSensorData, List.lookup],
      uniform 20 30 (u 8), by simp [mockSht, List.lookup],
      (uniform_mem 20 30 (u 8) (hu 8).1 (hu 8).2 (by norm_num)).1,
      (uniform_mem 20 30 (u 8) (hu 8).1 (hu 8).2 (by norm_num)).2⟩
  · exact ⟨mockSht u, by simp [mockSensorData, List.lookup],
      uniform 40 60 (u 9), by simp [mockSht, List.lookup],
      (uniform_mem 40 60 (u 9) (hu 9).1 (hu 9).2 (by norm_num)).1,
      (uniform_mem 40 60 (u 9) (hu 9).1 (hu 9).2 (by norm_num)).2⟩
  · exact ⟨mockProx z, by simp [mockSensorData, List.lookup],
      (randint 0 255 (z 0) : ℚ), by simp [mockProx, List.lookup],
      (hz255 0).1, (hz255 0).2⟩
  · exact ⟨mockProx z, by simp [mockSensorData, List.lookup],
      (randint 0 1023 (z 1) : ℚ), by simp [mockProx, List.lookup],
      (hz1023 1).1, (hz1023 1).2⟩
  · exact ⟨mockProx z, by simp [mockSensorData, List.lookup],
      (randint 0 1023 (z 2) : ℚ), by simp [mockProx, List.lookup],
      (hz1023 2).1, (hz1023 2).2⟩

/-- C6 witness. -/
theorem mockMode_ranges_witness :
    (qtReadAllSensors true (fun _ => 1/2) (fun _ => 0)
        ⟨none, none, none, none⟩).1 = mockSensorData (fun _ => 1/2) (fun _ => 0) ∧
    entryRange (mockSensorData (fun _ => 1/2) (fun _ => 0)) "bme280" "temp_c" 20 30 := by
  have h := mockMode_ranges (fun _ => 1/2) (fun _ => 0) ⟨none, none, none, none⟩
    (by intro i; norm_num)
  exact ⟨h.1, h.2.2.1⟩

/-! ### DataLogger (Qwiic_SensorsQT/data_logger.py)

Python dictionaries are association lists with unique keys; `del d[k]`
raises `KeyError` on a missing key; the file system maps a path to a list
of CSV rows.  `_open_log_file` opens (mode `w` plus header when the file
does not exist, mode `a` otherwise) and records the handle;
`log_sensor_data` writes one row per enabled sensor, reopening missing
handles; `archive_logs` closes, moves and deletes each active handle. -/

/-- A Python runtime error relevant to the logger. -/
inductive PyErr where
  | keyError
  | ioError (msg : String)
deriving DecidableEq

/-- A CSV row: the header row written on creation, or a data row. -/
inductive Row where
  | hdr (cols : List String)
  | dat (cells : List String)
deriving DecidableEq

/-- The file system: path to file content. -/
abbrev FileSys := List (String × List Row)

/-- Remove a key from a dictionary (no error). -/
def removeKey {β : Type} (d : List (String × β)) (k : String) :
    List (String × β) :=
  d.filter (fun kv => !(kv.1 == k))

/-- Python dictionary assignment `d[k] = v`. -/
def setKey {β : Type} (d : List (String × β)) (k : String) (v : β) :
    List (String × β) :=
  (k, v) :: removeKey d k

/-- Python `del d[k]`: raises `KeyError` when the key is absent. -/
def delKey {β : Type} (d : List (String × β)) (k : String) :
    Except PyErr (List (String × β)) :=
  if (d.lookup k).isSome then .ok (removeKey d k) else .error .keyError

theorem lookup_removeKey_other {β : Type} (d : List (String × β))
    (k k' : String) (h : k' ≠ k) : (removeKey d k).lookup k' = d.lookup k' := by
  induction d with
  | nil => rfl
  | cons kv rest ih =>
    obtain ⟨a, b⟩ := kv
    by_cases hk : a = k
    · subst hk
      have h1 : removeKey ((a, b) :: rest) a = removeKey rest a := by
        simp [removeKey, List.filter_cons]
      rw [h1, ih]
      simp [List.lookup, show (k' == a) = false from by simpa using h]
    · have h1 : removeKey ((a, b) :: rest) k = (a, b) :: removeKey rest k := by
        simp [removeKey, List.filter_cons, hk]
      rw [h1]
      by_cases hk' : k' = a
      · subst hk'; simp [List.lookup]
      · simp only [List.lookup, show (k' == a) = false from by simpa using hk']
        exact ih

theorem lookup_removeKey_self {β : Type} (d : List (String × β)) (k : String) :
    (removeKey d k).lookup k = none := by
  induction d with
  | nil => rfl
  | cons kv rest ih =>
    obtain ⟨a, b⟩ := kv
    by_cases hk : a = k
    · subst hk
      have h1 : removeKey ((a, b) :: rest) a = removeKey rest a := by
        simp [removeKey, List.filter_cons]
      rw [h1]
      exact ih
    · have h1 : removeKey ((a, b) :: rest) k = (a, b) :: removeKey rest k := by
        simp [removeKey, List.filter_cons, hk]
      rw [h1]
      simp only [List.lookup,
        show (k == a) = false from by simpa using fun h => hk h.symm]
      exact ih

theorem lookup_setKey_self {β : Type} (d : List (String × β)) (k : String) (v : β) :
    (setKey d k v).lookup k = some v := by
  simp [setKey, List.lookup]

theorem lookup_setKey_other {β : Type} (d : List (String × β)) (k k' : String)
    (v : β) (h : k' ≠ k) : (setKey d k v).lookup k' = d.lookup k' := by
  simp only [setKey, List.lookup, show (k' == k) = false by simp [h]]
  exact lookup_removeKey_other d k k' h

/-- Write (create or replace) a file's content. -/
def setFile (fs : FileSys) (p : String) (c : List Row) : FileSys :=
  setKey fs p c

/-- The per-sensor CSV header row of `_open_log_file`. -/
def headerCols (sensor : String) : List String :=
  if sensor = "bme280" then
    ["timestamp", "temperature_c", "humidity", "pressure_pa", "altitude_m",
     "temperature_f", "dewpoint_c", "dewpoint_f"]
  else if sensor = "sgp40" then ["timestamp", "voc_index"]
  else if sensor = "shtc3" then ["timestamp", "temperature_c", "humidity"]
  else if sensor = "proximity" then
    ["timestamp", "proximity", "ambient_light", "white_light"]
  else []

/-- The rows a freshly created CSV file holds after `_open_log_file`
writes the header (the four known sensors get their header row; any
other name would create an empty file). -/
def headerRowsFor (sensor : String) : List Row :=
  if sensor = "bme280" ∨ sensor = "sgp40" ∨ sensor = "shtc3" ∨ sensor = "proximity"
  then [.hdr (headerCols sensor)] else []

/-- `os.path.join(log_path, sensor, f"{sensor}_{today}.csv")`. -/
def logFilePath (logPath sensor today : String) : String :=
  logPath ++ "/" ++ sensor ++ "/" ++ sensor ++ "_" ++ today ++ ".csv"

/-- The logger state: the active handle dictionary (sensor to the path it
was opened at), the file system, and the emitted status messages. -/
structure LoggerState where
  handles : List (String × String)
  fs : FileSys
  statuses : List StatusMsg

/-- The environment of one logger call: configured log path, today's
date string, and which `open`/`writerow` calls raise. -/
structure LogEnv where
  logPath : String
  today : String
  openFails : String → Option String
  writeFails : String → Option String

/-- The `try` body and `except` clause of `_open_log_file`: check
existence, open, write the header when the file is new, record the
handle; on an exception emit a danger status and drop the sensor from
the handle dictionary. -/
def openBody (env : LogEnv) (st : LoggerState) (sensor path : String) :
    LoggerState :=
  match env.openFails path with
  | some e =>
    { st with
      handles := removeKey st.handles sensor,
      statuses := st.statuses ++
        [("Error opening/creating log file for " ++ sensor ++ ": " ++ e, "danger")] }
  | none =>
    let fileExists := (st.fs.lookup path).isSome
    { st with
      handles := setKey st.handles sensor path,
      fs := if fileExists then st.fs else setFile st.fs path (headerRowsFor sensor) }

/-- `DataLogger._open_log_file`: an already-open handle for today's path
returns unchanged; a stale handle is closed (its entry is overwritten or
deleted by the body); otherwise the file is opened. -/
def openLogFile (env : LogEnv) (st : LoggerState) (sensor : String) :
    LoggerState :=
  match st.handles.lookup sensor with
  | some p =>
    if p = logFilePath env.logPath sensor env.today then st
    else openBody env st sensor (logFilePath env.logPath sensor env.today)
  | none => openBody env st sensor (logFilePath env.logPath sensor env.today)

/-- String form of a metric cell; missing keys give `"N/A"`
(`data.get(key, 'N/A')`). -/
def getCell (md : MetricDict) (k : String) : String :=
  match md.lookup k with
  | some (.num q) => toString q
  | some .nan => "nan"
  | none => "N/A"

/-- The data row assembled by `log_sensor_data` for one sensor. -/
def dataRow (sensor : String) (readings : SensorDict) (ts : String) : Row :=
  let md := (readings.lookup sensor).getD []
  if sensor = "bme280" then
    .dat [ts, getCell md "temp_c", getCell md "humidity", getCell md "pressure",
      getCell md "altitude", getCell md "temp_f", getCell md "dewpoint_c",
      getCell md "dewpoint_f"]
  else if sensor = "sgp40" then .dat [ts, getCell md "voc_index"]
  else if sensor = "shtc3" then
    .dat [ts, getCell md "temperature", getCell md "humidity"]
  else if sensor = "proximity" then
    .dat [ts, getCell md "proximity", getCell md "ambient_light",
      getCell md "white_light"]
  else .dat [ts]

/-- `writer.writerow(row)` with its surrounding `try`: on failure emit a
danger status; on success append the row to the file (a write to a path
no longer in the file system is lost, as for a moved file's handle). -/
def writeRow (env : LogEnv) (st : LoggerState) (sensor path : String)
    (row : Row) : LoggerState :=
  match env.writeFails path with
  | some e =>
    { st with statuses := st.statuses ++
        [("Error writing data to CSV for " ++ sensor ++ ": " ++ e, "danger")] }
  | none =>
    match st.fs.lookup path with
    | some c => { st with fs := setFile st.fs path (c ++ [row]) }
    | none => st

/-- One iteration of the `log_sensor_data` loop for a `(sensor, enabled)`
settings entry: skip disabled sensors, reopen a missing handle, then
write the row when a handle is available. -/
def logStep (env : LogEnv) (readings : SensorDict) (ts : String)
    (st : LoggerState) (sensor : String) (enabled : Bool) : LoggerState :=
  if !enabled then st
  else
    let st1 := match st.handles.lookup sensor with
      | some _ => st
      | none => openLogFile env st sensor
    match st1.handles.lookup sensor with
    | some path => writeRow env st1 sensor path (dataRow sensor readings ts)
    | none => st1

/-- `DataLogger.log_sensor_data` over the settings dictionary. -/
def logSensorData (env : LogEnv) (readings : SensorDict) (ts : String)
    (settings : List (String × Bool)) (st : LoggerState) : LoggerState :=
  settings.foldl (fun s kv => logStep env readings ts s kv.1 kv.2) st

/-- Render a Python exception for a status string. -/
def pyStr : PyErr → String
  | .keyError => "KeyError"
  | .ioError m => m

/-- Outcomes of the external calls of `archive_logs` for one sensor:
whether `file_obj.close()` and `shutil.move` raise. -/
structure ArchiveEnv where
  closeFails : String → Option String
  moveFails : String → Option String

/-- One iteration of the `archive_logs` loop.  The `try` body closes the
handle, moves the file (removing it from its original path) and deletes
the handle entry; the `except` clause emits a danger status; the
`finally` block deletes the handle entry again — on the success path the
entry is already gone and the `del` raises `KeyError`, which propagates. -/
def archiveStep (aenv : ArchiveEnv) (sensor : String) (st : LoggerState) :
    Except PyErr LoggerState :=
  let body : Except PyErr LoggerState :=
    match aenv.closeFails sensor with
    | some e => .error (.ioError e)
    | none =>
      match aenv.moveFails sensor with
      | some e => .error (.ioError e)
      | none =>
        let path := (st.handles.lookup sensor).getD ""
        match delKey st.handles sensor with
        | .ok h => .ok ⟨h, removeKey st.fs path, st.statuses⟩
        | .error e => .error e
  match body with
  | .ok st1 =>
    match delKey st1.handles sensor with
    | .ok h2 => .ok ⟨h2, st1.fs, st1.statuses⟩
    | .error e => .error e
  | .error e =>
    let st2 := { st with statuses := st.statuses ++
      [("Error archiving log file for " ++ sensor ++ ": " ++ pyStr e, "danger")] }
    match delKey st2.handles sensor with
    | .ok h2 => .ok { st2 with handles := h2 }
    | .error e2 => .error e2

/-- The `for sensor_name in list(keys)` loop of `archive_logs`; an
exception escaping an iteration aborts the whole call. -/
def archiveLoop (aenv : ArchiveEnv) :
    List String → LoggerState → Except PyErr LoggerState
  | [], st => .ok st
  | s :: rest, st =>
    match archiveStep aenv s st with
    | .ok st' => archiveLoop aenv rest st'
    | .error e => .error e

/-- `DataLogger.archive_logs` of the PyQt application: status, the
archive loop over a snapshot of the handle keys, the success status, and
the reopen of the log files of the enabled sensors. -/
def archiveLogs (aenv : ArchiveEnv) (env : LogEnv)
    (settings : List (String × Bool)) (st : LoggerState) :
    Except PyErr LoggerState :=
  let st0 := { st with statuses := st.statuses ++ [("Archiving sensor logs...", "info")] }
  match archiveLoop aenv (st0.handles.map Prod.fst) st0 with
  | .error e => .error e
  | .ok st1 =>
    let st2 := { st1 with statuses := st1.statuses ++ [("Logs archived", "success")] }
    .ok (settings.foldl (fun s kv => if kv.2 then openLogFile env s kv.1 else s) st2)

/-- C2 (failing evaluation): with a single active handle whose close and
move both succeed, `archive_logs` deletes the handle entry in the `try`
body and the `finally` block deletes it again, so the call raises an
unhandled `KeyError` — it does not return normally and never reopens the
log files. -/
theorem archiveLogs_raises_keyError :
    archiveLogs ⟨fun _ => none, fun _ => none⟩
      ⟨"logs", "2026-10-12", fun _ => none, fun _ => none⟩
      [("bme280", true)]
      ⟨[("bme280", "logs/bme280/bme280_2026-10-12.csv")],
       [("logs/bme280/bme280_2026-10-12.csv", [.hdr (headerCols "bme280")])], []⟩ =
      .error .keyError := by
  rfl

/-! ### C5: open failure drops the handle; logging resumes on reopen -/

/-- The file system `fs'` extends `fs`: every file keeps its content as a
prefix (rows are only ever appended; new files may appear). -/
def fsExtends (fs fs' : FileSys) : Prop :=
  ∀ p c, fs.lookup p = some c → ∃ d, fs'.lookup p = some (c ++ d)

theorem fsExtends_refl (fs : FileSys) : fsExtends fs fs := by
  intro p c h
  exact ⟨[], by simpa using h⟩

theorem fsExtends_trans {fs₁ fs₂ fs₃ : FileSys}
    (h₁ : fsExtends fs₁ fs₂) (h₂ : fsExtends fs₂ fs₃) : fsExtends fs₁ fs₃ := by
  intro p c h
  obtain ⟨d, hd⟩ := h₁ p c h
  obtain ⟨d', hd'⟩ := h₂ p (c ++ d) hd
  exact ⟨d ++ d', by simpa [List.append_assoc] using hd'⟩

theorem openBody_fs_extends (env : LogEnv) (st : LoggerState)
    (sensor path : String) : fsExtends st.fs (openBody env st sensor path).fs := by
  unfold openBody
  cases h : env.openFails path with
  | some e => exact fsExtends_refl st.fs
  | none =>
    intro p c hc
    by_cases hex : (st.fs.lookup path).isSome
    · exact ⟨[], by simpa [hex] using hc⟩
    · have hne : p ≠ path := by
        intro he
        subst he
        rw [hc] at hex
        simp at hex
      refine ⟨[], ?_⟩
      simp only [hex, if_false, List.append_nil]
      simpa [setFile, lookup_setKey_other st.fs path p _ hne] using hc

theorem openLogFile_fs_extends (env : LogEnv) (st : LoggerState)
    (sensor : String) : fsExtends st.fs (openLogFile env st sensor).fs := by
  unfold openLogFile
  cases h : st.handles.lookup sensor with
  | some p =>
    by_cases hp : p = logFilePath env.logPath sensor env.today
    · simpa [hp] using fsExtends_refl st.fs
    · simpa [hp] using openBody_fs_extends env st sensor _
  | none => exact openBody_fs_extends env st sensor _

theorem writeRow_fs_extends (env : LogEnv) (st : LoggerState)
    (sensor path : String) (row : Row) :
    fsExtends st.fs (writeRow env st sensor path row).fs := by
  unfold writeRow
  cases hw : env.writeFails path with
  | some e => exact fsExtends_refl st.fs
  | none =>
    cases hc : st.fs.lookup path with
    | none => exact fsExtends_refl st.fs
    | some c0 =>
      intro p c hpc
      by_cases hp : p = path
      · subst hp
        rw [hpc] at hc
        injection hc with hc
        subst hc
        exact ⟨[row], by simp [setFile, lookup_setKey_self]⟩
      · exact ⟨[], by simpa [setFile, lookup_setKey_other st.fs path p _ hp] using hpc⟩

theorem logStep_fs_extends (env : LogEnv) (readings : SensorDict) (ts : String)
    (st : LoggerState) (t : String) (b : Bool) :
    fsExtends st.fs (logStep env readings ts st t b).fs := by
  unfold logStep
  by_cases hb : b = false
  · simp [hb, fsExtends_refl]
  · have hb' : b = true := by cases b <;> simp_all
    subst hb'
    simp only [Bool.not_true, Bool.false_eq_true, if_false]
    cases h : st.handles.lookup t with
    | some p =>
      simp only [h]
      exact writeRow_fs_extends env st t p _
    | none =>
      simp only [h]
      cases h2 : (openLogFile env st t).handles.lookup t with
      | some q =>
        simp only [h2]
        exact fsExtends_trans (openLogFile_fs_extends env st t)
          (writeRow_fs_extends env (openLogFile env st t) t q _)
      | none =>
        simp only [h2]
        exact openLogFile_fs_extends env st t

theorem logSensorData_fs_extends (env : LogEnv) (readings : SensorDict)
    (ts : String) (settings : List (String × Bool)) :
    ∀ st : LoggerState, fsExtends st.fs (logSensorData env readings ts settings st).fs := by
  induction settings with
  | nil => intro st; exact fsExtends_refl st.fs
  | cons kv rest ih =>
    intro st
    exact fsExtends_trans (logStep_fs_extends env readings ts st kv.1 kv.2)
      (ih (logStep env readings ts st kv.1 kv.2))

theorem openBody_handles_other (env : LogEnv) (st : LoggerState)
    (sensor path s : String) (h : s ≠ sensor) :
    (openBody env st sensor path).handles.lookup s = st.handles.lookup s := by
  unfold openBody
  cases ho : env.openFails path with
  | some e => exact lookup_removeKey_other st.handles sensor s h
  | none => exact lookup_setKey_other st.handles sensor s path h

theorem openLogFile_handles_other (env : LogEnv) (st : LoggerState)
    (sensor s : String) (h : s ≠ sensor) :
    (openLogFile env st sensor).handles.lookup s = st.handles.lookup s := by
  unfold openLogFile
  cases hl : st.handles.lookup sensor with
  | some p =>
    by_cases hp : p = logFilePath env.logPath sensor env.today
    · simp [hp]
    · simpa [hp] using openBody_handles_other env st sensor _ s h
  | none => exact openBody_handles_other env st sensor _ s h

theorem writeRow_handles (env : LogEnv) (st : LoggerState)
    (sensor path : String) (row : Row) :
    (writeRow env st sensor path row).handles = st.handles := by
  unfold writeRow
  cases env.writeFails path with
  | some e => rfl
  | none => cases st.fs.lookup path <;> rfl

theorem logStep_handles_other (env : LogEnv) (readings : SensorDict)
    (ts : String) (st : LoggerState) (t : String) (b : Bool) (s : String)
    (h : s ≠ t) :
    (logStep env readings ts st t b).handles.lookup s = st.handles.lookup s := by
  unfold logStep
  by_cases hb : b = false
  · simp [hb]
  · have hb' : b = true := by cases b <;> simp_all
    subst hb'
    simp only [Bool.not_true, Bool.false_eq_true, if_false]
    cases hl : st.handles.lookup t with
    | some p =>
      simp only [hl]
      rw [writeRow_handles]
    | none =>
      simp only [hl]
      cases h2 : (openLogFile env st t).handles.lookup t with
      | some q =>
        simp only [h2]
        rw [writeRow_handles]
        exact openLogFile_handles_other env st t s h
      | none =>
        simp only [h2]
        exact openLogFile_handles_other env st t s h

theorem logSensorData_handles_other (env : LogEnv) (readings : SensorDict)
    (ts : String) (settings : List (String × Bool)) :
    ∀ st : LoggerState, (s : String) → s ∉ settings.map Prod.fst →
    (logSensorData env readings ts settings st).handles.lookup s =
      st.handles.lookup s := by
  induction settings with
  | nil => intro st s _; rfl
  | cons kv rest ih =>
    intro st s hs
    simp only [List.map_cons, List.mem_cons, not_or] at hs
    rw [logSensorData, List.foldl_cons]
    have := ih (logStep env readings ts st kv.1 kv.2) s (by simpa using hs.2)
    rw [logSensorData] at this
    rw [this]
    exact logStep_handles_other env readings ts st kv.1 kv.2 s hs.1

theorem openLogFile_failure (env : LogEnv) (st : LoggerState) (sensor e : String)
    (hfail : env.openFails (logFilePath env.logPath sensor env.today) = some e)
    (hno : st.handles.lookup sensor ≠
      some (logFilePath env.logPath sensor env.today)) :
    (openLogFile env st sensor).handles.lookup sensor = none ∧
    (openLogFile env st sensor).statuses = st.statuses ++
      [("Error opening/creating log file for " ++ sensor ++ ": " ++ e, "danger")] := by
  unfold openLogFile openBody
  cases hl : st.handles.lookup sensor with
  | some p =>
    have hp : p ≠ logFilePath env.logPath sensor env.today := by
      intro he; exact hno (by rw [hl, he])
    simp only [hp, if_false, hfail]
    exact ⟨lookup_removeKey_self st.handles sensor, trivial⟩
  | none =>
    simp only [hfail]
    exact ⟨lookup_removeKey_self st.handles sensor, trivial⟩

theorem logStep_resume (env : LogEnv) (readings : SensorDict) (ts : String)
    (st : LoggerState) (s : String)
    (hnone : st.handles.lookup s = none)
    (hopen : env.openFails (logFilePath env.logPath s env.today) = none)
    (hwrite : env.writeFails (logFilePath env.logPath s env.today) = none) :
    (logStep env readings ts st s true).handles.lookup s =
      some (logFilePath env.logPath s env.today) ∧
    ∃ c, (logStep env readings ts st s true).fs.lookup
        (logFilePath env.logPath s env.today) = some c ∧
      dataRow s readings ts ∈ c := by
  cases hfs : st.fs.lookup (logFilePath env.logPath s env.today) with
  | some c0 =>
    refine ⟨?_, c0 ++ [dataRow s readings ts], ?_, by simp⟩ <;>
      simp [logStep, openLogFile, openBody, writeRow, hnone, hopen, hwrite, hfs,
        setFile, lookup_setKey_self]
  | none =>
    refine ⟨?_, headerRowsFor s ++ [dataRow s readings ts], ?_, by simp⟩ <;>
      simp [logStep, openLogFile, openBody, writeRow, hnone, hopen, hwrite, hfs,
        setFile, lookup_setKey_self]

theorem fsExtends_mem {fs fs' : FileSys} (h : fsExtends fs fs')
    (p : String) (c : List Row) (r : Row) (hc : fs.lookup p = some c)
    (hr : r ∈ c) : ∃ c', fs'.lookup p = some c' ∧ r ∈ c' := by
  obtain ⟨d, hd⟩ := h p c hc
  exact ⟨c ++ d, hd, List.mem_append_left d hr⟩

theorem logSensorData_resumes (env : LogEnv) (readings : SensorDict)
    (ts : String) (settings : List (String × Bool)) :
    ∀ st : LoggerState, ∀ s : String,
    (s, true) ∈ settings → (settings.map Prod.fst).Nodup →
    st.handles.lookup s = none →
    env.openFails (logFilePath env.logPath s env.today) = none →
    env.writeFails (logFilePath env.logPath s env.today) = none →
    (logSensorData env readings ts settings st).handles.lookup s =
      some (logFilePath env.logPath s env.today) ∧
    ∃ c, (logSensorData env readings ts settings st).fs.lookup
        (logFilePath env.logPath s env.today) = some c ∧
      dataRow s readings ts ∈ c := by
  induction settings with
  | nil => intro st s hmem; cases hmem
  | cons kv rest ih =>
    intro st s hmem hnodup hnone hopen hwrite
    simp only [List.map_cons, List.nodup_cons] at hnodup
    rcases List.mem_cons.mp hmem with heq | hrest
    · subst heq
      rw [logSensorData, List.foldl_cons]
      obtain ⟨h1, c, hc, hrmem⟩ := logStep_resume env readings ts st s hnone hopen hwrite
      constructor
      · have hnotin : s ∉ rest.map Prod.fst := hnodup.1
        have := logSensorData_handles_other env readings ts rest
          (logStep env readings ts st s true) s hnotin
        rw [logSensorData] at this
        rw [this, h1]
      · obtain ⟨c', hc', hm'⟩ := fsExtends_mem
          (logSensorData_fs_extends env readings ts rest
            (logStep env readings ts st s true)) _ c (dataRow s readings ts) hc hrmem
        rw [logSensorData] at hc'
        exact ⟨c', hc', hm'⟩
    · have hst : s ≠ kv.1 := by
        intro he
        exact hnodup.1 (he ▸ (List.mem_map.mpr ⟨(s, true), hrest, by rw [he]⟩))
      rw [logSensorData, List.foldl_cons]
      have hnone' : (logStep env readings ts st kv.1 kv.2).handles.lookup s = none := by
        rw [logStep_handles_other env readings ts st kv.1 kv.2 s hst]
        exact hnone
      have := ih (logStep env readings ts st kv.1 kv.2) s hrest hnodup.2
        hnone' hopen hwrite
      rw [logSensorData] at this
      exact this

/-- C5: (1) when `open` raises, `_open_log_file` emits exactly one danger
status and leaves the sensor outside the active handle dictionary;
(2) a `log_sensor_data` call for an enabled sensor with no active handle
reopens the file, and on the first successful open the handle is live
again and the sensor's data row lands in its CSV file. -/
theorem openFailure_dropped_and_logging_resumes :
    (∀ (env : LogEnv) (st : LoggerState) (sensor e : String),
      env.openFails (logFilePath env.logPath sensor env.today) = some e →
      st.handles.lookup sensor ≠ some (logFilePath env.logPath sensor env.today) →
      (openLogFile env st sensor).handles.lookup sensor = none ∧
      (openLogFile env st sensor).statuses = st.statuses ++
        [("Error opening/creating log file for " ++ sensor ++ ": " ++ e, "danger")]) ∧
    (∀ (env : LogEnv) (readings : SensorDict) (ts : String)
      (settings : List (String × Bool)) (st : LoggerState) (s : String),
      (s, true) ∈ settings → (settings.map Prod.fst).Nodup →
      st.handles.lookup s = none →
      env.openFails (logFilePath env.logPath s env.today) = none →
      env.writeFails (logFilePath env.logPath s env.today) = none →
      (logSensorData env readings ts settings st).handles.lookup s =
        some (logFilePath env.logPath s env.today) ∧
      ∃ c, (logSensorData env readings ts settings st).fs.lookup
          (logFilePath env.logPath s env.today) = some c ∧
        dataRow s readings ts ∈ c) :=
  ⟨fun env st sensor e hf hn => openLogFile_failure env st sensor e hf hn,
   fun env readings ts settings st s h1 h2 h3 h4 h5 =>
    logSensorData_resumes env readings ts settings st s h1 h2 h3 h4 h5⟩

/-- C5 witness. -/
theorem openFailure_dropped_and_logging_resumes_witness :
    (openLogFile ⟨"logs", "d", fun _ => some "disk full", fun _ => none⟩
        ⟨[], [], []⟩ "bme280").handles.lookup "bme280" = none ∧
    (logSensorData ⟨"logs", "d", fun _ => none, fun _ => none⟩ [] "t"
        [("bme280", true)] ⟨[], [], []⟩).handles.lookup "bme280" =
      some (logFilePath "logs" "bme280" "d") := by
  obtain ⟨h1, h2⟩ := openFailure_dropped_and_logging_resumes
  exact ⟨(h1 ⟨"logs", "d", fun _ => some "disk full", fun _ => none⟩
      ⟨[], [], []⟩ "bme280" "disk full" rfl (by simp [List.lookup])).1,
    (h2 ⟨"logs", "d", fun _ => none, fun _ => none⟩ [] "t"
      [("bme280", true)] ⟨[], [], []⟩ "bme280" (by simp) (by simp) rfl rfl rfl).1⟩

/-! ### C7: CSV headers are written exactly once, on file creation -/

/-- The four sensor names that `_open_log_file` writes a header for. -/
def knownSensor (s : String) : Prop :=
  s = "bme280" ∨ s = "sgp40" ∨ s = "shtc3" ∨ s = "proximity"

/-- The content starts with a header row and holds no further header. -/
def headedOnce (c : List Row) : Prop :=
  ∃ cols tl, c = .hdr cols :: tl ∧ ∀ r ∈ tl, ∃ cells, r = .dat cells

/-- All files of the file system are headed exactly once. -/
def fsWellFormed (fs : FileSys) : Prop :=
  ∀ p c, fs.lookup p = some c → headedOnce c

/-- An operation of the logger lifecycle relevant to the CSV files. -/
inductive LogOp where
  | openFile (sensor : String)
  | logData (settings : List (String × Bool)) (readings : SensorDict) (ts : String)

def applyOp (env : LogEnv) (st : LoggerState) : LogOp → LoggerState
  | .openFile s => openLogFile env st s
  | .logData settings readings ts => logSensorData env readings ts settings st

def applyOps (env : LogEnv) (ops : List LogOp) (st : LoggerState) : LoggerState :=
  ops.foldl (applyOp env) st

/-- The sensors an operation touches are among the four known ones. -/
def opKnown : LogOp → Prop
  | .openFile s => knownSensor s
  | .logData settings _ _ => ∀ kv ∈ settings, knownSensor kv.1

theorem headerRowsFor_known (s : String) (h : knownSensor s) :
    headerRowsFor s = [.hdr (headerCols s)] := by
  rcases h with h | h | h | h <;> subst h <;> rfl

theorem openBody_fs_existing (env : LogEnv) (st : LoggerState)
    (sensor path : String) (c : List Row) (hc : st.fs.lookup path = some c) :
    (openBody env st sensor path).fs.lookup path = some c := by
  unfold openBody
  cases ho : env.openFails path with
  | some e => exact hc
  | none => simp [hc]

theorem openBody_fs_creates (env : LogEnv) (st : LoggerState)
    (sensor path : String) (hk : knownSensor sensor)
    (hopen : env.openFails path = none) (hmiss : st.fs.lookup path = none) :
    (openBody env st sensor path).fs.lookup path = some [.hdr (headerCols sensor)] := by
  unfold openBody
  simp [hopen, hmiss, setFile, lookup_setKey_self, headerRowsFor_known sensor hk]

theorem dataRow_isDat (s : String) (readings : SensorDict) (ts : String) :
    ∃ cells, dataRow s readings ts = .dat cells := by
  unfold dataRow
  split_ifs <;> exact ⟨_, rfl⟩

theorem openBody_wf (env : LogEnv) (st : LoggerState) (sensor path : String)
    (hk : knownSensor sensor) (hwf : fsWellFormed st.fs) :
    fsWellFormed (openBody env st sensor path).fs := by
  unfold openBody
  cases ho : env.openFails path with
  | some e => exact hwf
  | none =>
    cases hex : st.fs.lookup path with
    | some c1 =>
      intro p c hc
      exact hwf p c (by simpa [hex] using hc)
    | none =>
      intro p c hc
      simp only [hex, Option.isSome_none, Bool.false_eq_true, if_false] at hc
      by_cases hp : p = path
      · subst hp
        simp only [setFile, lookup_setKey_self] at hc
        injection hc with hc
        subst hc
        rw [headerRowsFor_known sensor hk]
        exact ⟨headerCols sensor, [], rfl, by simp⟩
      · rw [show (setFile st.fs path (headerRowsFor sensor)).lookup p = st.fs.lookup p
            from lookup_setKey_other st.fs path p _ hp] at hc
        exact hwf p c hc

theorem openLogFile_wf (env : LogEnv) (st : LoggerState) (sensor : String)
    (hk : knownSensor sensor) (hwf : fsWellFormed st.fs) :
    fsWellFormed (openLogFile env st sensor).fs := by
  unfold openLogFile
  cases hl : st.handles.lookup sensor with
  | some p =>
    by_cases hp : p = logFilePath env.logPath sensor env.today
    · simpa [hp] using hwf
    · simpa [hp] using openBody_wf env st sensor _ hk hwf
  | none => exact openBody_wf env st sensor _ hk hwf

theorem writeRow_wf (env : LogEnv) (st : LoggerState) (sensor path : String)
    (readings : SensorDict) (ts : String) (hwf : fsWellFormed st.fs) :
    fsWellFormed (writeRow env st sensor path (dataRow sensor readings ts)).fs := by
  unfold writeRow
  cases hw : env.writeFails path with
  | some e => exact hwf
  | none =>
    cases hc : st.fs.lookup path with
    | none => exact hwf
    | some c0 =>
      intro p c hpc
      by_cases hp : p = path
      · subst hp
        simp only [setFile, lookup_setKey_self] at hpc
        injection hpc with hpc
        subst hpc
        obtain ⟨cols, tl, hhd, htl⟩ := hwf _ c0 hc
        refine ⟨cols, tl ++ [dataRow sensor readings ts], by rw [hhd]; simp, ?_⟩
        intro r hr
        rcases List.mem_append.mp hr with h | h
        · exact htl r h
        · rw [List.mem_singleton.mp h]
          exact dataRow_isDat sensor readings ts
      · rw [show (setFile st.fs path (c0 ++ [dataRow sensor readings ts])).lookup p =
            st.fs.lookup p from lookup_setKey_other st.fs path p _ hp] at hpc
        exact hwf p c hpc

theorem logStep_wf (env : LogEnv) (readings : SensorDict) (ts : String)
    (st : LoggerState) (t : String) (b : Bool) (hk : knownSensor t)
    (hwf : fsWellFormed st.fs) :
    fsWellFormed (logStep env readings ts st t b).fs := by
  unfold logStep
  by_cases hb : b = false
  · simpa [hb] using hwf
  · have hb' : b = true := by cases b <;> simp_all
    subst hb'
    simp only [Bool.not_true, Bool.false_eq_true, if_false]
    cases h : st.handles.lookup t with
    | some p =>
      simp only [h]
      exact writeRow_wf env st t p readings ts hwf
    | none =>
      simp only [h]
      cases h2 : (openLogFile env st t).handles.lookup t with
      | some q =>
        simp only [h2]
        exact writeRow_wf env (openLogFile env st t) t q readings ts
          (openLogFile_wf env st t hk hwf)
      | none =>
        simp only [h2]
        exact openLogFile_wf env st t hk hwf

theorem logSensorData_wf (env : LogEnv) (readings : SensorDict) (ts : String)
    (settings : List (String × Bool)) :
    ∀ st : LoggerState, (∀ kv ∈ settings, knownSensor kv.1) →
    fsWellFormed st.fs → fsWellFormed (logSensorData env readings ts settings st).fs := by
  induction settings with
  | nil => intro st _ hwf; exact hwf
  | cons kv rest ih =>
    intro st hks hwf
    rw [logSensorData, List.foldl_cons]
    have step := logStep_wf env readings ts st kv.1 kv.2
      (hks kv (List.mem_cons_self kv rest)) hwf
    have := ih (logStep env readings ts st kv.1 kv.2)
      (fun kv' h => hks kv' (List.mem_cons_of_mem kv h)) step
    rwa [logSensorData] at this

theorem applyOps_wf (env : LogEnv) (ops : List LogOp) :
    ∀ st : LoggerState, (∀ op ∈ ops, opKnown op) → fsWellFormed st.fs →
    fsWellFormed (applyOps env ops st).fs := by
  induction ops with
  | nil => intro st _ hwf; exact hwf
  | cons op rest ih =>
    intro st hks hwf
    rw [applyOps, List.foldl_cons]
    have hop : opKnown op := hks op (List.mem_cons_self op rest)
    have step : fsWellFormed (applyOp env st op).fs := by
      cases op with
      | openFile s => exact openLogFile_wf env st s hop hwf
      | logData settings readings ts => exact logSensorData_wf env readings ts settings st hop hwf
    have := ih (applyOp env st op) (fun o h => hks o (List.mem_cons_of_mem op h)) step
    rwa [applyOps] at this

/-- C7 counterexample: the bme280 header row that `_open_log_file` writes
has 8 cells — the timestamp plus 7 data columns — not the timestamp plus
8 data columns the claim states. -/
theorem headerCols_bme280_counterexample :
    (headerCols "bme280").length = 8 ∧ ¬((headerCols "bme280").length = 1 + 8) := by
  constructor
  · rfl
  · intro h
    rw [show (headerCols "bme280").length = 8 from rfl] at h
    omega

/-- C7 (amended: the bme280 header has 7 data columns plus timestamp):
header row widths are timestamp + 7/1/2/3 data columns; opening an
existing file never changes its content (append mode, no header); opening
a missing file creates it with exactly the header row; and across any
sequence of open/log operations every file of the file system keeps
exactly one header, as its first row. -/
theorem openLogFile_header_once :
    ((headerCols "bme280").length = 1 + 7 ∧ (headerCols "sgp40").length = 1 + 1 ∧
     (headerCols "shtc3").length = 1 + 2 ∧ (headerCols "proximity").length = 1 + 3) ∧
    (∀ (env : LogEnv) (st : LoggerState) (sensor : String) (c : List Row),
      st.fs.lookup (logFilePath env.logPath sensor env.today) = some c →
      (openLogFile env st sensor).fs.lookup
        (logFilePath env.logPath sensor env.today) = some c) ∧
    (∀ (env : LogEnv) (st : LoggerState) (sensor : String),
      knownSensor sensor →
      st.handles.lookup sensor ≠ some (logFilePath env.logPath sensor env.today) →
      env.openFails (logFilePath env.logPath sensor env.today) = none →
      st.fs.lookup (logFilePath env.logPath sensor env.today) = none →
      (openLogFile env st sensor).fs.lookup
        (logFilePath env.logPath sensor env.today) =
        some [.hdr (headerCols sensor)]) ∧
    (∀ (env : LogEnv) (ops : List LogOp) (st : LoggerState),
      (∀ op ∈ ops, opKnown op) → fsWellFormed st.fs →
      fsWellFormed (applyOps env ops st).fs) := by
  refine ⟨⟨rfl, rfl, rfl, rfl⟩, ?_, ?_, fun env ops st h hwf => applyOps_wf env ops st h hwf⟩
  · intro env st sensor c hc
    unfold openLogFile
    cases hl : st.handles.lookup sensor with
    | some p =>
      by_cases hp : p = logFilePath env.logPath sensor env.today
      · simpa [hp] using hc
      · simpa [hp] using openBody_fs_existing env st sensor _ c hc
    | none => exact openBody_fs_existing env st sensor _ c hc
  · intro env st sensor hk hno hopen hmiss
    unfold openLogFile
    cases hl : st.handles.lookup sensor with
    | some p =>
      have hp : p ≠ logFilePath env.logPath sensor env.today := by
        intro he; exact hno (by rw [hl, he])
      simpa [hp] using openBody_fs_creates env st sensor _ hk hopen hmiss
    | none => exact openBody_fs_creates env st sensor _ hk hopen hmiss

/-- C7 witness. -/
theorem openLogFile_header_once_witness :
    (openLogFile ⟨"logs", "d", fun _ => none, fun _ => none⟩ ⟨[], [], []⟩
        "bme280").fs.lookup (logFilePath "logs" "bme280" "d") =
      some [.hdr (headerCols "bme280")] :=
  openLogFile_header_once.2.2.1 ⟨"logs", "d", fun _ => none, fun _ => none⟩
    ⟨[], [], []⟩ "bme280" (Or.inl rfl) (by simp [List.lookup]) rfl rfl

/-! ### SensorReader.run (Qwiic_Sensors/sensor_reader.py)

The run loop is modelled as a trace over per-iteration environments: the
Boolean value the shared stop event shows at each of the iteration's stop
checks, and whether the read timer expired.  An exhausted environment
list ends the observation window. -/

/-- Observable actions of the run loop. -/
inductive Action where
  | archiveCheck
  | read
  | log
  | status (msg : String)
deriving DecidableEq

/-- Stop-event samples of one iteration: at the `while` condition, at the
check after the control-message drain, and at the check after the
automatic archive check; plus whether `current_time >= next_read_time`. -/
structure IterEnv where
  stopW : Bool
  stopA : Bool
  stopB : Bool
  timeToRead : Bool
deriving DecidableEq

/-- The final status message pushed after the main loop exits. -/
def stopMsg : String := "Sensor thread stopped."

/-- `SensorReader.run`: each iteration checks the stop event at the
`while` condition, drains control messages, checks again (line 59), and
when the read timer expired runs the archive check, checks once more
(line 68), then reads, records and logs; the stop-aware sleep ends the
iteration.  A check observing the stop event breaks the loop, after
which the final status message is pushed. -/
def runLoop : List IterEnv → List Action
  | [] => []
  | e :: rest =>
    if e.stopW then [.status stopMsg]
    else if e.stopA then [.status stopMsg]
    else if e.timeToRead then
      if e.stopB then [.archiveCheck, .status stopMsg]
      else .archiveCheck :: .read :: .log :: runLoop rest
    else runLoop rest

/-- The actions of a run of iterations none of which observes the stop
event. -/
def normalActs : List IterEnv → List Action
  | [] => []
  | e :: rest =>
    (if e.timeToRead then [.archiveCheck, .read, .log] else []) ++ normalActs rest

/-- Iteration `e` observes the stop event at one of its checks. -/
def observesStop (e : IterEnv) : Prop :=
  e.stopW = true ∨ e.stopA = true ∨ (e.timeToRead = true ∧ e.stopB = true)

/-- C8: once the stop event is observed — at the earliest in iteration
`i`, at any of the loop's stop checks — the run-loop trace is the normal
trace of the earlier iterations followed by a tail that contains no
sensor read and ends with the final "Sensor thread stopped." status:
the loop performs no further reads and terminates. -/
theorem runLoop_stops (envs : List IterEnv) (i : ℕ) (hi : i < envs.length)
    (hobs : observesStop (envs.get ⟨i, hi⟩))
    (hmin : ∀ j (hj : j < envs.length), j < i → ¬ observesStop (envs.get ⟨j, hj⟩)) :
    ∃ tail, runLoop envs = normalActs (envs.take i) ++ tail ∧
      Action.read ∉ tail ∧ tail.getLast? = some (.status stopMsg) := by
  induction envs generalizing i with
  | nil => cases hi
  | cons e rest ih =>
    cases i with
    | zero =>
      simp only [List.get] at hobs
      unfold runLoop
      by_cases hw : e.stopW
      · exact ⟨[.status stopMsg], by simp [hw, normalActs], by simp, by simp⟩
      · by_cases ha : e.stopA
        · exact ⟨[.status stopMsg], by simp [hw, ha, normalActs], by simp, by simp⟩
        · have ht : e.timeToRead = true ∧ e.stopB = true := by
            rcases hobs with h | h | h
            · exact absurd h hw
            · exact absurd h ha
            · exact h
          refine ⟨[.archiveCheck, .status stopMsg], ?_, by simp, by simp⟩
          simp [hw, ha, ht.1, ht.2, normalActs]
    | succ j =>
      have hnot : ¬ observesStop e := by
        have := hmin 0 (by simp) (Nat.succ_pos j)
        simpa [List.get] using this
      simp only [observesStop, not_or, not_and] at hnot
      obtain ⟨hw, ha, hb⟩ := hnot
      have hw' : e.stopW = false := by simpa using hw
      have ha' : e.stopA = false := by simpa using ha
      have hj' : j < rest.length := by simpa using hi
      have hobs' : observesStop (rest.get ⟨j, hj'⟩) := by
        simpa [List.get] using hobs
      have hmin' : ∀ k (hk : k < rest.length), k < j →
          ¬ observesStop (rest.get ⟨k, hk⟩) := by
        intro k hk hkj
        have := hmin (k + 1) (by simpa using Nat.succ_lt_succ hk)
          (Nat.succ_lt_succ hkj)
        simpa [List.get] using this
      obtain ⟨tail, htr, hread, hlast⟩ := ih j hj' hobs' hmin'
      by_cases htt : e.timeToRead
      · have hb' : e.stopB = false := by simpa using hb htt
        refine ⟨tail, ?_, hread, hlast⟩
        unfold runLoop
        simp only [hw', ha', htt, hb', Bool.false_eq_true, if_false, if_true]
        rw [htr]
        simp [normalActs, htt]
      · refine ⟨tail, ?_, hread, hlast⟩
        unfold runLoop
        simp only [hw', ha', Bool.false_eq_true, if_false]
        rw [if_neg (by simpa using htt), htr]
        simp [normalActs, htt]

/-- C8 witness. -/
theorem runLoop_stops_witness :
    ∃ tail, runLoop [⟨false, false, false, true⟩, ⟨true, true, true, false⟩] =
      normalActs ([(⟨false, false, false, true⟩ : IterEnv),
        ⟨true, true, true, false⟩].take 1) ++ tail ∧
      Action.read ∉ tail ∧ tail.getLast? = some (.status stopMsg) :=
  runLoop_stops [⟨false, false, false, true⟩, ⟨true, true, true, false⟩] 1
    (by decide) (by simp [observesStop])
    (by
      intro j hj hlt
      have hj0 : j = 0 := by omega
      subst hj0
      simp [observesStop])

/-! ### GPS trip analysis (gps_dashboard_app.py, `_analyze_trip_data`)

Headings are rationals; Python's float `%` with a positive modulus is
`a - b * ⌊a / b⌋`, which lands in `[0, b)`. -/

/-- Python's `%` for a positive rational modulus. -/
def pymod (a b : ℚ) : ℚ := a - b * ⌊a / b⌋

/-- The heading-difference computation of the sharp-cornering detection:
both headings reduced modulo 360, their difference folded into
`[-180, 180]` by the two conditional corrections. -/
def normalizeHeadingDiff (prev cur : ℚ) : ℚ :=
  let p := pymod prev 360
  let c := pymod cur 360
  let d := c - p
  if d > 180 then d - 360 else if d < -180 then d + 360 else d

theorem pymod_nonneg (a b : ℚ) (hb : 0 < b) : 0 ≤ pymod a b := by
  unfold pymod
  have h1 : (⌊a / b⌋ : ℚ) ≤ a / b := Int.floor_le (a / b)
  have h2 : b * (⌊a / b⌋ : ℚ) ≤ b * (a / b) :=
    mul_le_mul_of_nonneg_left h1 (le_of_lt hb)
  rw [mul_div_cancel₀ a (ne_of_gt hb)] at h2
  linarith

theorem pymod_lt (a b : ℚ) (hb : 0 < b) : pymod a b < b := by
  unfold pymod
  have h1 : a / b < (⌊a / b⌋ : ℚ) + 1 := Int.lt_floor_add_one (a / b)
  have h2 : b * (a / b) < b * ((⌊a / b⌋ : ℚ) + 1) :=
    (mul_lt_mul_left hb).mpr h1
  rw [mul_div_cancel₀ a (ne_of_gt hb)] at h2
  linarith [h2, mul_add b ((⌊a / b⌋ : ℚ)) 1]

theorem pymod_add_int_mul (a : ℚ) (k : ℤ) :
    pymod (a + 360 * k) 360 = pymod a 360 := by
  unfold pymod
  have h1 : (a + 360 * k) / 360 = a / 360 + k := by
    field_simp <;> ring
  rw [h1, Int.floor_add_int]
  push_cast
  ring

theorem pymod_of_nonneg_lt (d : ℚ) (h0 : 0 ≤ d) (h1 : d < 360) :
    pymod d 360 = d := by
  unfold pymod
  have : ⌊d / 360⌋ = 0 := by
    rw [Int.floor_eq_zero_iff]
    constructor
    · positivity
    · rw [div_lt_one (by norm_num : (0:ℚ) < 360)]
      exact h1
  rw [this]
  simp

theorem pymod_of_neg (d : ℚ) (h0 : -360 ≤ d) (h1 : d < 0) :
    pymod d 360 = d + 360 := by
  unfold pymod
  have : ⌊d / 360⌋ = -1 := by
    rw [Int.floor_eq_iff]
    constructor
    · push_cast
      rw [le_div_iff (by norm_num : (0:ℚ) < 360)]
      linarith
    · push_cast
      rw [div_lt_iff (by norm_num : (0:ℚ) < 360)]
      linarith
  rw [this]
  push_cast
  ring

/-- C10: the heading difference of the cornering detection always lies
in `[-180, 180]` and its absolute value is the smaller arc between the
two headings modulo 360 (`min e (360 - e)` for `e = (cur - prev) mod
360`), so the angular velocity derived from it is never inflated by a
wrap of the 0/360 boundary. -/
theorem normalizeHeadingDiff_smaller_arc (prev cur : ℚ) :
    -180 ≤ normalizeHeadingDiff prev cur ∧ normalizeHeadingDiff prev cur ≤ 180 ∧
    |normalizeHeadingDiff prev cur| =
      min (pymod (cur - prev) 360) (360 - pymod (cur - prev) 360) := by
  have h360 : (0:ℚ) < 360 := by norm_num
  set p := pymod prev 360 with hp
  set c := pymod cur 360 with hc
  have hp0 : 0 ≤ p := pymod_nonneg prev 360 h360
  have hp1 : p < 360 := pymod_lt prev 360 h360
  have hc0 : 0 ≤ c := pymod_nonneg cur 360 h360
  have hc1 : c < 360 := pymod_lt cur 360 h360
  set d := c - p with hd
  have hdlo : -360 < d := by rw [hd]; linarith
  have hdhi : d < 360 := by rw [hd]; linarith
  have hkey : pymod (cur - prev) 360 = pymod d 360 := by
    have heq : cur - prev = d + 360 * (((⌊cur / 360⌋ - ⌊prev / 360⌋ : ℤ) : ℚ)) := by
      rw [hd, hc, hp]
      unfold pymod
      push_cast
      ring
    rw [heq, pymod_add_int_mul]
  have hnorm : normalizeHeadingDiff prev cur =
      (if d > 180 then d - 360 else if d < -180 then d + 360 else d) := rfl
  rw [hnorm, hkey]
  by_cases h1 : d > 180
  · rw [if_pos h1]
    have he : pymod d 360 = d := pymod_of_nonneg_lt d (by linarith) hdhi
    rw [he]
    refine ⟨by linarith, by linarith, ?_⟩
    rw [abs_of_nonpos (by linarith), min_eq_right (by linarith)]
    ring
  · rw [if_neg h1]
    by_cases h2 : d < -180
    · rw [if_pos h2]
      have he : pymod d 360 = d + 360 := pymod_of_neg d (by linarith) (by linarith)
      rw [he]
      refine ⟨by linarith, by linarith, ?_⟩
      rw [abs_of_nonneg (by linarith), min_eq_left (by linarith)]
    · rw [if_neg h2]
      push_neg at h1 h2
      refine ⟨h2, h1, ?_⟩
      by_cases h3 : 0 ≤ d
      · have he : pymod d 360 = d := pymod_of_nonneg_lt d h3 hdhi
        rw [he, abs_of_nonneg h3, min_eq_left (by linarith)]
      · push_neg at h3
        have he : pymod d 360 = d + 360 := pymod_of_neg d (by linarith) h3
        rw [he, abs_of_neg h3, min_eq_right (by linarith)]
        ring

end Qwiic
